import Mathlib

/-!
Verification of the risk-managed trade execution core of the Thor trading
bot (risk_management.py and trader.py), via a shallow embedding.

Modelling conventions:
* Python floats are embedded as rationals, so arithmetic is exact.
* The positions dict is an association list in insertion order (Python
  dicts preserve insertion order and have unique keys); assignment to an
  existing key updates in place, assignment to a fresh key appends.
* Timestamps, logging and the storage placeholders are omitted: they do
  not influence any value or state transition modelled here.
* Exceptions are modelled with the Except monad where control flow
  depends on them; a raised KeyError from a dict subscript is an
  Except.error.
* The RiskManager's self.lock (risk_management.py line 62) is a plain
  threading.Lock, which is not reentrant: a method that acquires it and
  then calls another method that acquires it again blocks forever. Where
  such nesting occurs, the lock is modelled explicitly (withLock) and a
  call that never returns is none; methods whose lock use does not nest
  return their value directly.
-/

set_option autoImplicit false

namespace Thor

/-- Position dataclass, risk_management.py lines 12-38 (entry_time
omitted: it never influences any computation modelled here). -/
structure Position where
  token_address : String
  symbol : String
  quantity : ℚ
  avg_entry_price : ℚ
  current_price : ℚ
  unrealized_pnl : ℚ := 0
  realized_pnl : ℚ := 0
  stop_loss_price : Option ℚ := none
  take_profit_price : Option ℚ := none
  deriving DecidableEq

/-- Position.current_value property (line 27). -/
def Position.current_value (p : Position) : ℚ :=
  p.quantity * p.current_price

/-- Position.entry_value property (line 31). -/
def Position.entry_value (p : Position) : ℚ :=
  p.quantity * p.avg_entry_price

/-- Position.pnl_percentage property (lines 34-38). -/
def Position.pnl_percentage (p : Position) : ℚ :=
  if p.avg_entry_price = 0 then 0
  else ((p.current_price - p.avg_entry_price) / p.avg_entry_price) * 100

/-- One entry of RiskManager.trade_history, as built by _record_trade
(lines 403-419); the date field is omitted. -/
structure TradeRecord where
  token_address : String
  side : String
  quantity : ℚ
  price : ℚ
  realized_pnl : Option ℚ
  deriving DecidableEq

/-- State of a RiskManager instance (lines 53-71): the positions dict,
the trade history, and the four risk limits read from config. -/
structure RiskManager where
  positions : List (String × Position)
  trade_history : List TradeRecord
  max_position_size : ℚ
  max_total_exposure : ℚ
  stop_loss_pct : ℚ
  take_profit_pct : ℚ
  deriving DecidableEq

/-- Python dict read: self.positions.get(token_address) — first (unique)
entry with the given key. -/
def lookupPos (ps : List (String × Position)) (t : String) : Option Position :=
  match ps with
  | [] => none
  | (k, v) :: rest => if k = t then some v else lookupPos rest t

/-- Python dict write: self.positions[token_address] = pos — updates the
entry in place when the key exists, appends otherwise. -/
def updatePos (ps : List (String × Position)) (t : String) (v : Position) :
    List (String × Position) :=
  match ps with
  | [] => [(t, v)]
  | (k, w) :: rest => if k = t then (t, v) :: rest else (k, w) :: updatePos rest t v

/-- Python dict removal: self.positions.pop(token_address). -/
def removePos (ps : List (String × Position)) (t : String) :
    List (String × Position) :=
  match ps with
  | [] => []
  | (k, w) :: rest => if k = t then rest else (k, w) :: removePos rest t

/-- RiskManager.get_portfolio_value (lines 285-291): sum of the current
values of all positions. -/
def get_portfolio_value (rm : RiskManager) : ℚ :=
  (rm.positions.map fun pr => pr.2.current_value).sum

/-- RiskManager.get_total_exposure (lines 293-295): alias for
get_portfolio_value. -/
def get_total_exposure (rm : RiskManager) : ℚ :=
  get_portfolio_value rm

/-- The prospective position value computed at lines 86-90 of
validate_trade: the trade value plus the current value of an existing
position for the token, if any. -/
def prospective_position_value (rm : RiskManager) (token_address : String)
    (quantity price : ℚ) : ℚ :=
  match lookupPos rm.positions token_address with
  | some current_position => quantity * price + current_position.current_value
  | none => quantity * price

/-- The verdict computation of RiskManager.validate_trade (lines
73-118) with the lock mechanics erased — the verdict the method was
written to produce. It is NOT what the program does for every buy: the
method body holds the non-reentrant self.lock (line 81) and re-acquires
it through get_total_exposure (line 96) and get_portfolio_value (line
103), so every buy that survives the position-size check hangs; see
validate_trade_locked for the faithful lock-aware embedding. Reason
strings are kept without the numeric interpolation of the f-strings. -/
def validate_trade (rm : RiskManager) (token_address side : String)
    (quantity price : ℚ) : Bool × String :=
  let trade_value := quantity * price
  if side = "buy" then
    let new_position_value := prospective_position_value rm token_address quantity price
    if new_position_value > rm.max_position_size then
      (false, "Position size limit exceeded")
    else
      let new_exposure := get_total_exposure rm + trade_value
      if new_exposure > rm.max_total_exposure then
        (false, "Total exposure limit exceeded")
      else
        let portfolio_value := get_portfolio_value rm
        if portfolio_value > 0 ∧ new_position_value / portfolio_value > 1/4 then
          (false, "Concentration risk")
        else
          (true, "Trade validated")
  else if side = "sell" then
    match lookupPos rm.positions token_address with
    | none => (false, "No position to sell")
    | some current_position =>
      if quantity > current_position.quantity then
        (false, "Insufficient position")
      else
        (true, "Trade validated")
  else
    (true, "Trade validated")

/-- Acquiring the RiskManager's self.lock (line 62), a plain
threading.Lock, at the top of a with-statement: when the current thread
already holds it the acquire blocks forever (the lock is not
reentrant), modelled as none; otherwise the body runs with the lock
held, and is told so. -/
def withLock {α : Type} (held : Bool) (body : Bool → Option α) : Option α :=
  if held then none else body true

/-- RiskManager.get_portfolio_value (lines 285-291) with its lock
acquisition made explicit: the positions sum computed under the lock,
or a hang when the calling thread already holds the lock. -/
def get_portfolio_value_locked (rm : RiskManager) (held : Bool) : Option ℚ :=
  withLock held (fun _ => some (get_portfolio_value rm))

/-- RiskManager.get_total_exposure (lines 293-295) with lock mechanics:
delegates to get_portfolio_value. -/
def get_total_exposure_locked (rm : RiskManager) (held : Bool) : Option ℚ :=
  get_portfolio_value_locked rm held

/-- RiskManager.validate_trade (lines 73-118) with the lock mechanics
made explicit: the with-statement at line 81 acquires self.lock, and
the calls at line 96 (get_total_exposure) and line 103
(get_portfolio_value) then acquire it again while it is held. A result
of none is a call that never returns. -/
def validate_trade_locked (rm : RiskManager) (token_address side : String)
    (quantity price : ℚ) (held : Bool) : Option (Bool × String) :=
  withLock held (fun held2 =>
    let trade_value := quantity * price
    if side = "buy" then
      let new_position_value := prospective_position_value rm token_address quantity price
      if new_position_value > rm.max_position_size then
        some (false, "Position size limit exceeded")
      else
        match get_total_exposure_locked rm held2 with
        | none => none
        | some current_exposure =>
          let new_exposure := current_exposure + trade_value
          if new_exposure > rm.max_total_exposure then
            some (false, "Total exposure limit exceeded")
          else
            match get_portfolio_value_locked rm held2 with
            | none => none
            | some portfolio_value =>
              if portfolio_value > 0 ∧ new_position_value / portfolio_value > 1/4 then
                some (false, "Concentration risk")
              else
                some (true, "Trade validated")
    else if side = "sell" then
      match lookupPos rm.positions token_address with
      | none => some (false, "No position to sell")
      | some current_position =>
        if quantity > current_position.quantity then
          some (false, "Insufficient position")
        else
          some (true, "Trade validated")
    else
      some (true, "Trade validated"))

/-- RiskManager.calculate_position_size (lines 120-154). -/
def calculate_position_size (rm : RiskManager) (price : ℚ)
    (confidence_score : ℚ) : ℚ :=
  let portfolio_value := get_portfolio_value rm
  let base_size_usd := min (portfolio_value * (1/100)) (rm.max_position_size * (1/10))
  let adjusted_size_usd := base_size_usd * confidence_score
  let max_allowed_usd := min rm.max_position_size
      (rm.max_total_exposure - get_total_exposure rm)
  let final_size_usd := min adjusted_size_usd max_allowed_usd
  if final_size_usd ≤ 0 then 0
  else final_size_usd / price

/-- RiskManager.add_position (lines 156-193): blend into an existing
position, or create a fresh one with stop-loss and take-profit prices
derived from the entry price. -/
def add_position (rm : RiskManager) (token_address symbol : String)
    (quantity price : ℚ) : RiskManager :=
  match lookupPos rm.positions token_address with
  | some pos =>
      let total_quantity := pos.quantity + quantity
      let total_value := pos.quantity * pos.avg_entry_price + quantity * price
      let new_avg_price := total_value / total_quantity
      let pos2 := { pos with quantity := total_quantity, avg_entry_price := new_avg_price }
      { rm with positions := updatePos rm.positions token_address pos2 }
  | none =>
      let position : Position :=
        { token_address := token_address
          symbol := symbol
          quantity := quantity
          avg_entry_price := price
          current_price := price
          stop_loss_price := some (price * (1 - rm.stop_loss_pct))
          take_profit_price := some (price * (1 + rm.take_profit_pct)) }
      { rm with positions := updatePos rm.positions token_address position }

/-- RiskManager._record_trade (lines 403-419): append a record and keep
only the last 1000 entries. -/
def recordTrade (hist : List TradeRecord) (token_address side : String)
    (quantity price : ℚ) (realized_pnl : Option ℚ) : List TradeRecord :=
  let h := hist ++ [⟨token_address, side, quantity, price, realized_pnl⟩]
  if h.length > 1000 then h.drop (h.length - 1000) else h

/-- RiskManager.reduce_position (lines 195-235). Returns the new state
together with the optional realized PnL; both failure paths return
before any mutation or trade recording. -/
def reduce_position (rm : RiskManager) (token_address : String)
    (quantity exit_price : ℚ) : RiskManager × Option ℚ :=
  match lookupPos rm.positions token_address with
  | none => (rm, none)
  | some position =>
    if quantity > position.quantity then (rm, none)
    else
      let realized_pnl := quantity * (exit_price - position.avg_entry_price)
      let position2 : Position :=
        { position with
            quantity := position.quantity - quantity
            realized_pnl := position.realized_pnl + realized_pnl }
      let ps :=
        if position2.quantity ≤ 0 then removePos rm.positions token_address
        else updatePos rm.positions token_address position2
      ({ rm with
          positions := ps
          trade_history := recordTrade rm.trade_history token_address "sell"
            quantity exit_price (some realized_pnl) },
       some realized_pnl)

/-- One trigger event produced by check_stop_losses. -/
structure Trigger where
  token_address : String
  symbol : String
  action : String
  current_price : ℚ
  trigger_price : ℚ
  quantity : ℚ
  pnl_pct : ℚ
  deriving DecidableEq

/-- Python truthiness of the optional stop-loss price combined with the
comparison: position.stop_loss_price and current_price <= stop_loss_price
(lines 258-259); a float of 0.0 is falsy. -/
def stopCond (pos : Position) : Bool :=
  match pos.stop_loss_price with
  | none => false
  | some s => decide (s ≠ 0) && decide (pos.current_price ≤ s)

/-- Python truthiness for the take-profit branch (lines 271-272). -/
def tpCond (pos : Position) : Bool :=
  match pos.take_profit_price with
  | none => false
  | some t => decide (t ≠ 0) && decide (t ≤ pos.current_price)

/-- The stop-loss trigger dict appended at lines 260-268. -/
def stopTrig (t : String) (pos : Position) : Trigger :=
  { token_address := t
    symbol := pos.symbol
    action := "stop_loss"
    current_price := pos.current_price
    trigger_price := (pos.stop_loss_price).getD 0
    quantity := pos.quantity
    pnl_pct := pos.pnl_percentage }

/-- The take-profit trigger dict appended at lines 273-281. -/
def tpTrig (t : String) (pos : Position) : Trigger :=
  { token_address := t
    symbol := pos.symbol
    action := "take_profit"
    current_price := pos.current_price
    trigger_price := (pos.take_profit_price).getD 0
    quantity := pos.quantity
    pnl_pct := pos.pnl_percentage }

/-- The loop body of check_stop_losses over the positions dict (lines
256-281): stop-loss first, take-profit only in the elif branch. -/
def checkLoop : List (String × Position) → List Trigger
  | [] => []
  | (t, pos) :: rest =>
    if stopCond pos then stopTrig t pos :: checkLoop rest
    else if tpCond pos then tpTrig t pos :: checkLoop rest
    else checkLoop rest

/-- RiskManager.check_stop_losses (lines 246-283). -/
def check_stop_losses (rm : RiskManager) : List Trigger :=
  checkLoop rm.positions

/-- Folding a sequence of buys for one token through add_position. -/
def addAll (rm : RiskManager) (token_address symbol : String) :
    List (ℚ × ℚ) → RiskManager
  | [] => rm
  | qp :: rest => addAll (add_position rm token_address symbol qp.1 qp.2) token_address symbol rest

/-- Folding a sequence of reduce_position calls (token, quantity, exit
price), keeping only the resulting state. -/
def reduceAll (rm : RiskManager) : List (String × ℚ × ℚ) → RiskManager
  | [] => rm
  | c :: rest => reduceAll (reduce_position rm c.1 c.2.1 c.2.2).1 rest

/-- Trader._execute_buy (trader.py lines 100-133) composed with
_paper_trade_buy (lines 157-184): position sizing, the gate rejecting a
computed quantity <= 0, risk validation, then add_position on the paper
fill. Trade counters and the storage write are external side effects
not modelled; the live path differs only after validation. -/
def execute_buy_paper (rm : RiskManager) (token_address symbol : String)
    (price confidence_score : ℚ) : Bool × RiskManager :=
  let quantity := calculate_position_size rm price confidence_score
  if quantity ≤ 0 then (false, rm)
  else
    let v := validate_trade rm token_address "buy" quantity price
    if v.1 then (true, add_position rm token_address symbol quantity price)
    else (false, rm)

/-- Order statuses handled by Trader.monitor_order; unknown is the
default when the broker reply carries no status field. -/
inductive OrderStatus
  | filled
  | cancelled
  | failed
  | rejected
  | pending
  | partialFill
  | unknown
  deriving DecidableEq

/-- Trader.monitor_order (trader.py lines 294-356), abstracted over
wall-clock time: polls is the sequence of poll outcomes the broker
yields before the timeout would elapse, an Except.error being an
APIException raised by check_order_status (logged, polling continues,
lines 335-337); exhausting the list is the timeout. cancel_result is
the outcome of the cancel_order call in the timeout branch: the
surrounding try/except (lines 344-349) discards it, so it cannot
influence the returned value, and the call itself is skipped in
paper-trading mode (line 345). Returns the boolean result and the
number of cancel_order calls issued. -/
def monitor_order (paper_trading : Bool) (cancel_result : Except Unit Unit) :
    List (Except Unit OrderStatus) → Bool × Nat
  | [] => (false, if paper_trading then 0 else 1)
  | Except.error _ :: rest => monitor_order paper_trading cancel_result rest
  | Except.ok s :: rest =>
    if s = OrderStatus.filled then (true, 0)
    else if s = OrderStatus.cancelled ∨ s = OrderStatus.failed ∨ s = OrderStatus.rejected then
      (false, 0)
    else monitor_order paper_trading cancel_result rest

/-- Specification-side reading of the C7 claim: the first terminal
status observed among the polls, skipping transient API errors and
non-terminal statuses. -/
def firstTerminalStatus : List (Except Unit OrderStatus) → Option OrderStatus
  | [] => none
  | Except.error _ :: rest => firstTerminalStatus rest
  | Except.ok s :: rest =>
    if s = OrderStatus.filled ∨ s = OrderStatus.cancelled ∨ s = OrderStatus.failed ∨
        s = OrderStatus.rejected then some s
    else firstTerminalStatus rest

/-- The body of the try block of Trader.execute_trade (trader.py lines
72-94), abstracted over its callees: buy_result, sell_result and
mgmt_result are the outcomes (normal return or raised exception) of
_execute_buy, _execute_sell and _check_position_management for this
call, and price_usd is the value of token_info.get with key price_usd
and default 0. Composed into execute_trade below, after the pre-try
default-slippage resolution. -/
def execute_trade_body (price_usd : ℚ) (rating : String)
    (buy_result sell_result : Except Unit Bool) (mgmt_result : Except Unit Unit) :
    Except Unit Bool :=
  if price_usd ≤ 0 then Except.ok false
  else if rating = "bullish" then buy_result
  else if rating = "bearish" then sell_result
  else do
    let _ ← mgmt_result
    Except.ok true

/-- Python dict lookup by key, for the config.TRADING dict consumed by
the trader. -/
def lookupKey (m : List (String × ℚ)) (key : String) : Option ℚ :=
  match m with
  | [] => none
  | (k, v) :: rest => if k = key then some v else lookupKey rest key

/-- config.TRADING as the repository's config.py builds it:
Config._dict_from_class copies the attribute names of TradingConfig
verbatim (config.py lines 200-206), so every key is uppercase
(TradingConfig, config.py lines 88-109). In particular there is a
DEFAULT_SLIPPAGE key but no default_slippage key. -/
def repoTradingConfig : List (String × ℚ) :=
  [("MAX_POSITION_SIZE_USD", 1000),
   ("DEFAULT_POSITION_SIZE_USD", 100),
   ("MIN_POSITION_SIZE_USD", 10),
   ("MAX_SLIPPAGE", 1/20),
   ("DEFAULT_SLIPPAGE", 1/50),
   ("STOP_LOSS_PERCENT", 3/20),
   ("TAKE_PROFIT_PERCENT", 1/2),
   ("MAX_TRADES_PER_CYCLE", 20),
   ("MAX_DAILY_TRADES", 200),
   ("COOLDOWN_BETWEEN_TRADES", 5),
   ("MAX_CONCURRENT_POSITIONS", 50),
   ("PORTFOLIO_ALLOCATION_PERCENT", 1/50)]

/-- Trader.execute_trade (trader.py lines 54-98). Lines 69-70 run
BEFORE the try block: when max_slippage is None, the raising subscript
config.TRADING with the lowercase key default_slippage is evaluated,
and a missing key is a KeyError that escapes to the caller. Only then
does the try/except of lines 72-98 guard the body: an exception
escaping the body is logged, failed_trades is incremented, and false is
returned. The resolved slippage is only passed on to the callees, whose
outcomes are already abstracted as the *_result arguments. The result
is what the caller sees: an escaped exception, or the returned boolean
with the new failed-trades count. -/
def execute_trade (trading_config : List (String × ℚ)) (max_slippage : Option ℚ)
    (failed_trades : Nat) (price_usd : ℚ) (rating : String)
    (buy_result sell_result : Except Unit Bool) (mgmt_result : Except Unit Unit) :
    Except Unit (Bool × Nat) :=
  let resolve : Except Unit ℚ :=
    match max_slippage with
    | some s => Except.ok s
    | none =>
      match lookupKey trading_config "default_slippage" with
      | some v => Except.ok v
      | none => Except.error ()
  match resolve with
  | Except.error e => Except.error e
  | Except.ok _ =>
    match execute_trade_body price_usd rating buy_result sell_result mgmt_result with
    | Except.ok b => Except.ok (b, failed_trades)
    | Except.error _ => Except.ok (false, failed_trades + 1)

/-- Sample state: empty ledger, max position 1000 USD, max exposure
10000 USD, 15% stop-loss, 50% take-profit (the configured values). -/
def rmEmpty : RiskManager :=
  { positions := []
    trade_history := []
    max_position_size := 1000
    max_total_exposure := 10000
    stop_loss_pct := 3/20
    take_profit_pct := 1/2 }

/-- Sample position: one unit of token A valued at 100 USD. -/
def posA : Position :=
  { token_address := "A"
    symbol := "A"
    quantity := 1
    avg_entry_price := 100
    current_price := 100
    stop_loss_price := some 85
    take_profit_price := some 150 }

/-- Sample state holding only posA. -/
def rmOne : RiskManager :=
  { positions := [("A", posA)]
    trade_history := []
    max_position_size := 1000
    max_total_exposure := 10000
    stop_loss_pct := 3/20
    take_profit_pct := 1/2 }

/-- A position whose stop-loss price lies above its take-profit price,
with the current price between them: both threshold conditions hold at
once. -/
def posBad : Position :=
  { token_address := "B"
    symbol := "B"
    quantity := 1
    avg_entry_price := 1
    current_price := 7
    stop_loss_price := some 10
    take_profit_price := some 5 }

/-- Sample state holding only posBad. -/
def rmBad : RiskManager :=
  { positions := [("B", posBad)]
    trade_history := []
    max_position_size := 1000
    max_total_exposure := 10000
    stop_loss_pct := 3/20
    take_profit_pct := 1/2 }

/-- C5: calculate_position_size equals the claimed closed form: the
capped notional min(min(1% portfolio, 10% max-position-size) x
confidence, max-position-size, max-total-exposure - current exposure),
divided by price, and exactly 0 whenever that capped notional is <= 0. -/
theorem calculate_position_size_closed_form (rm : RiskManager)
    (price confidence_score : ℚ) :
    calculate_position_size rm price confidence_score =
      (if min (min (min ((1/100) * get_portfolio_value rm)
                ((1/10) * rm.max_position_size) * confidence_score)
              rm.max_position_size)
            (rm.max_total_exposure - get_total_exposure rm) ≤ 0 then 0
       else (min (min (min ((1/100) * get_portfolio_value rm)
                ((1/10) * rm.max_position_size) * confidence_score)
              rm.max_position_size)
            (rm.max_total_exposure - get_total_exposure rm)) / price) := by
  unfold calculate_position_size
  rw [min_assoc]
  ring_nf

/-- C1: the position-size limb of validate_trade behaves as the claim
states — a buy whose prospective position value exceeds
max-position-size is rejected — but every buy within the position-size
limit then re-acquires the non-reentrant lock (line 96) and never
returns: the exposure-limit limb of the claim is never exercised, and
in particular a buy whose prospective exposure exceeds
max-total-exposure hangs instead of returning allowed=false. -/
theorem validate_trade_deadlock (rm : RiskManager) (token_address : String)
    (quantity price : ℚ) :
    (prospective_position_value rm token_address quantity price > rm.max_position_size →
      validate_trade_locked rm token_address "buy" quantity price false =
        some (false, "Position size limit exceeded")) ∧
    (¬ prospective_position_value rm token_address quantity price > rm.max_position_size →
      validate_trade_locked rm token_address "buy" quantity price false = none) := by
  constructor
  · intro h
    simp only [validate_trade_locked, withLock, reduceIte]
    rw [if_pos h]
    rfl
  · intro h
    simp only [validate_trade_locked, withLock, reduceIte]
    rw [if_neg h]
    rfl

/-- Witness for C1: a 2000 USD buy against the 1000 USD position limit
is rejected; a 100 USD buy passes the position-size check and hangs. -/
theorem validate_trade_deadlock_witness :
    validate_trade_locked rmEmpty "T" "buy" 20 100 false =
      some (false, "Position size limit exceeded") ∧
    validate_trade_locked rmEmpty "T" "buy" 10 10 false = none :=
  ⟨(validate_trade_deadlock rmEmpty "T" 20 100).1 (by
      simp [prospective_position_value, lookupPos, rmEmpty]
      norm_num),
   (validate_trade_deadlock rmEmpty "T" 10 10).2 (by
      simp [prospective_position_value, lookupPos, rmEmpty]
      try norm_num)⟩

/-- C6 counterexample: a buy from an empty ledger whose post-trade
concentration is 100% (far above 25%) does not get allowed=false: the
call passes the position-size check, deadlocks re-acquiring the lock at
line 96, and never returns any verdict at all. -/
theorem validate_trade_concentration_hangs :
    prospective_position_value rmEmpty "T" 10 10 /
        (get_portfolio_value rmEmpty + 10 * 10) > 1/4 ∧
    validate_trade_locked rmEmpty "T" "buy" 10 10 false = none := by
  constructor
  · simp [prospective_position_value, lookupPos, get_portfolio_value, rmEmpty]
    norm_num
  · have h : ¬ prospective_position_value rmEmpty "T" 10 10 > rmEmpty.max_position_size := by
      simp [prospective_position_value, lookupPos, rmEmpty]
      try norm_num
    simp only [validate_trade_locked, withLock, reduceIte]
    rw [if_neg h]
    rfl

/-- C6 amended: the concentration check as written (lines 103-107)
divides by the PRE-trade portfolio value and is guarded by that value
being positive, but it is unreachable: for every buy request,
validate_trade either returns the position-size failure or deadlocks at
line 96 before the exposure and concentration checks, so no
concentration verdict — and no allowed=true — is ever returned for a
buy. -/
theorem validate_trade_concentration_dead (rm : RiskManager) (token_address : String)
    (quantity price : ℚ) (held : Bool) :
    validate_trade_locked rm token_address "buy" quantity price held =
      some (false, "Position size limit exceeded") ∨
    validate_trade_locked rm token_address "buy" quantity price held = none := by
  cases held
  · by_cases h : prospective_position_value rm token_address quantity price >
        rm.max_position_size
    · left
      simp only [validate_trade_locked, withLock, reduceIte]
      rw [if_pos h]
      rfl
    · right
      simp only [validate_trade_locked, withLock, reduceIte]
      rw [if_neg h]
      rfl
  · right
    rfl

/-- C8 counterexample: reducing a non-existent position fails and
appends nothing to the trade history, contradicting the claim that a
TradeRecord is appended regardless of outcome. -/
theorem reduce_position_history_claim_false :
    (reduce_position rmEmpty "T" 1 2).2 = none ∧
    (reduce_position rmEmpty "T" 1 2).1.trade_history.length ≠
      rmEmpty.trade_history.length + 1 := by
  constructor <;> simp [reduce_position, lookupPos, rmEmpty]

/-- Evaluation of reduce_position when no position exists for the
token: nothing happens. -/
lemma reduce_position_none (rm : RiskManager) (t : String) (q p : ℚ)
    (hl : lookupPos rm.positions t = none) :
    reduce_position rm t q p = (rm, none) := by
  unfold reduce_position
  rw [hl]

/-- Evaluation of reduce_position when the requested quantity exceeds
the held quantity: nothing happens. -/
lemma reduce_position_toomuch (rm : RiskManager) (t : String) (q p : ℚ)
    (pos : Position) (hl : lookupPos rm.positions t = some pos)
    (hq : pos.quantity < q) :
    reduce_position rm t q p = (rm, none) := by
  unfold reduce_position
  rw [hl]
  exact if_pos hq

/-- Evaluation of reduce_position on the success path. -/
lemma reduce_position_ok (rm : RiskManager) (t : String) (q p : ℚ)
    (pos : Position) (hl : lookupPos rm.positions t = some pos)
    (hq : ¬ pos.quantity < q) :
    reduce_position rm t q p =
      ({ rm with
          positions :=
            if pos.quantity - q ≤ 0 then removePos rm.positions t
            else updatePos rm.positions t
              ({ pos with
                  quantity := pos.quantity - q
                  realized_pnl := pos.realized_pnl + q * (p - pos.avg_entry_price) })
          trade_history := recordTrade rm.trade_history t "sell" q p
            (some (q * (p - pos.avg_entry_price))) },
       some (q * (p - pos.avg_entry_price))) := by
  unfold reduce_position
  rw [hl]
  exact if_neg hq

/-- C8 amended: reduce_position appends a TradeRecord (through
_record_trade) exactly when the reduction succeeds; on failure the
whole state, trade history included, is unchanged. -/
theorem reduce_position_history (rm : RiskManager) (token_address : String)
    (quantity exit_price : ℚ) :
    ((reduce_position rm token_address quantity exit_price).2 = none →
      (reduce_position rm token_address quantity exit_price).1 = rm) ∧
    (∀ pnl, (reduce_position rm token_address quantity exit_price).2 = some pnl →
      (reduce_position rm token_address quantity exit_price).1.trade_history =
        recordTrade rm.trade_history token_address "sell" quantity exit_price (some pnl)) := by
  cases hl : lookupPos rm.positions token_address with
  | none =>
    rw [reduce_position_none rm token_address quantity exit_price hl]
    exact ⟨fun _ => rfl, fun pnl h => by cases h⟩
  | some pos =>
    by_cases hq : pos.quantity < quantity
    · rw [reduce_position_toomuch rm token_address quantity exit_price pos hl hq]
      exact ⟨fun _ => rfl, fun pnl h => by cases h⟩
    · rw [reduce_position_ok rm token_address quantity exit_price pos hl hq]
      constructor
      · intro h
        exact absurd h (by simp)
      · intro pnl h
        injection h with h2
        subst h2
        rfl

/-- Witness for the amended C8: a failing reduction leaves the state
unchanged; a succeeding one appends its sell record. -/
theorem reduce_position_history_witness :
    (reduce_position rmEmpty "T" 1 2).1 = rmEmpty ∧
    (reduce_position rmOne "A" 1 2).1.trade_history =
      recordTrade rmOne.trade_history "A" "sell" 1 2 (some (-98)) := by
  refine ⟨(reduce_position_history rmEmpty "T" 1 2).1
    (by simp [reduce_position, lookupPos, rmEmpty]), ?_⟩
  refine (reduce_position_history rmOne "A" 1 2).2 (-98) ?_
  simp [reduce_position, lookupPos, rmOne, posA]
  norm_num

/-- C9: with the repository's config — whose TRADING keys are all
uppercase, so the lowercase key default_slippage is absent — a call
that leaves max_slippage at its default None evaluates the raising
subscript at line 70 before the try block and propagates a KeyError to
its caller; when the slippage is supplied explicitly, the pre-try step
cannot raise and the top-level try/except yields the behavior the claim
describes: always a returned boolean, with a raising callee converted
to false and one more failed trade. -/
theorem execute_trade_raises (ft : Nat) (price_usd : ℚ) (rating : String)
    (buy_result sell_result : Except Unit Bool) (mgmt_result : Except Unit Unit) :
    execute_trade repoTradingConfig none ft price_usd rating buy_result sell_result
        mgmt_result = Except.error () ∧
    ∀ slippage : ℚ,
      execute_trade repoTradingConfig (some slippage) ft price_usd rating buy_result
          sell_result mgmt_result =
        Except.ok (match execute_trade_body price_usd rating buy_result sell_result
            mgmt_result with
          | Except.ok b => (b, ft)
          | Except.error _ => (false, ft + 1)) := by
  constructor
  · rfl
  · intro slippage
    cases hb : execute_trade_body price_usd rating buy_result sell_result mgmt_result with
    | ok b => simp [execute_trade, hb]
    | error e => simp [execute_trade, hb]

/-- C7 counterexample: in paper-trading mode a timed-out monitor issues
no cancel attempt at all, contradicting the claim that exactly one
cancel attempt is always issued on timeout. -/
theorem monitor_order_claim_false :
    monitor_order true (Except.ok ()) [Except.ok OrderStatus.pending] = (false, 0) ∧
    (0 : Nat) ≠ 1 := by
  constructor
  · rfl
  · decide

/-- C10: with an empty ledger the portfolio value is 0, so the base
notional and hence the capped notional are at most 0,
calculate_position_size returns 0, and the buy path (which rejects a
computed quantity of 0) returns false without touching the ledger: no
first position can ever be opened from an empty portfolio. -/
theorem empty_portfolio_never_buys (rm : RiskManager) (token_address symbol : String)
    (price confidence_score : ℚ) (hpos : rm.positions = [])
    (hconf : 0 ≤ confidence_score ∧ confidence_score ≤ 1) (_hprice : 0 < price) :
    calculate_position_size rm price confidence_score = 0 ∧
    execute_buy_paper rm token_address symbol price confidence_score = (false, rm) := by
  have hpv : get_portfolio_value rm = 0 := by
    simp [get_portfolio_value, hpos]
  have hcalc : calculate_position_size rm price confidence_score = 0 := by
    unfold calculate_position_size
    rw [hpv]
    have hbase : min ((0 : ℚ) * (1/100)) (rm.max_position_size * (1/10)) ≤ 0 := by
      have h := min_le_left ((0 : ℚ) * (1/100)) (rm.max_position_size * (1/10))
      linarith
    have hadj : min ((0 : ℚ) * (1/100)) (rm.max_position_size * (1/10)) *
        confidence_score ≤ 0 := by
      nlinarith [hconf.1, hbase]
    have hfin : min (min ((0 : ℚ) * (1/100)) (rm.max_position_size * (1/10)) *
        confidence_score)
        (min rm.max_position_size (rm.max_total_exposure - get_total_exposure rm)) ≤ 0 :=
      le_trans (min_le_left _ _) hadj
    exact if_pos hfin
  refine ⟨hcalc, ?_⟩
  unfold execute_buy_paper
  rw [hcalc]
  simp

/-- Witness for C10: the sample empty manager sizes every trade at 0
and the buy path declines. -/
theorem empty_portfolio_never_buys_witness :
    calculate_position_size rmEmpty 2 1 = 0 ∧
    execute_buy_paper rmEmpty "T" "T" 2 1 = (false, rmEmpty) :=
  empty_portfolio_never_buys rmEmpty "T" "T" 2 1 rfl (by norm_num) (by norm_num)

/-- Every entry of updatePos is the written pair or an entry of the
original list. -/
lemma mem_updatePos (ps : List (String × Position)) (t : String) (v : Position)
    (pr : String × Position) (h : pr ∈ updatePos ps t v) : pr = (t, v) ∨ pr ∈ ps := by
  induction ps with
  | nil => simpa [updatePos] using h
  | cons hd rest ih =>
    obtain ⟨k, w⟩ := hd
    simp only [updatePos] at h
    by_cases hk : k = t
    · rw [if_pos hk] at h
      rcases List.mem_cons.mp h with h1 | h1
      · exact Or.inl h1
      · exact Or.inr (List.mem_cons_of_mem _ h1)
    · rw [if_neg hk] at h
      rcases List.mem_cons.mp h with h1 | h1
      · subst h1
        exact Or.inr (List.mem_cons_self _ _)
      · rcases ih h1 with h2 | h2
        · exact Or.inl h2
        · exact Or.inr (List.mem_cons_of_mem _ h2)

/-- Every entry of removePos is an entry of the original list. -/
lemma mem_removePos (ps : List (String × Position)) (t : String)
    (pr : String × Position) (h : pr ∈ removePos ps t) : pr ∈ ps := by
  induction ps with
  | nil => simp [removePos] at h
  | cons hd rest ih =>
    obtain ⟨k, w⟩ := hd
    simp only [removePos] at h
    by_cases hk : k = t
    · rw [if_pos hk] at h
      exact List.mem_cons_of_mem _ h
    · rw [if_neg hk] at h
      rcases List.mem_cons.mp h with h1 | h1
      · subst h1
        exact List.mem_cons_self _ _
      · exact List.mem_cons_of_mem _ (ih h1)

/-- A single reduce_position call keeps every held quantity
nonnegative. -/
lemma reduce_position_nonneg (rm : RiskManager) (t : String) (q p : ℚ)
    (h : ∀ pr ∈ rm.positions, 0 ≤ pr.2.quantity) :
    ∀ pr ∈ (reduce_position rm t q p).1.positions, 0 ≤ pr.2.quantity := by
  cases hl : lookupPos rm.positions t with
  | none =>
    rw [reduce_position_none rm t q p hl]
    exact h
  | some pos =>
    by_cases hq : pos.quantity < q
    · rw [reduce_position_toomuch rm t q p pos hl hq]
      exact h
    · rw [reduce_position_ok rm t q p pos hl hq]
      intro pr hpr
      have hpr2 : pr ∈ (if pos.quantity - q ≤ 0 then removePos rm.positions t
          else updatePos rm.positions t
            ({ pos with
                quantity := pos.quantity - q
                realized_pnl := pos.realized_pnl + q * (p - pos.avg_entry_price) })) := hpr
      by_cases hz : pos.quantity - q ≤ 0
      · rw [if_pos hz] at hpr2
        exact h pr (mem_removePos _ _ _ hpr2)
      · rw [if_neg hz] at hpr2
        rcases mem_updatePos _ _ _ _ hpr2 with h1 | h1
        · subst h1
          show (0 : ℚ) ≤ pos.quantity - q
          exact le_of_lt (not_le.mp hz)
        · exact h pr h1

/-- A whole sequence of reduce_position calls keeps every held quantity
nonnegative. -/
lemma reduceAll_nonneg (calls : List (String × ℚ × ℚ)) :
    ∀ (rm : RiskManager), (∀ pr ∈ rm.positions, 0 ≤ pr.2.quantity) →
      ∀ pr ∈ (reduceAll rm calls).positions, 0 ≤ pr.2.quantity := by
  induction calls with
  | nil =>
    intro rm h
    simpa [reduceAll] using h
  | cons c rest ih =>
    intro rm h
    simp only [reduceAll]
    exact ih _ (reduce_position_nonneg rm c.1 c.2.1 c.2.2 h)

/-- C3: reduce_position returns none and leaves the whole state
unchanged when no position exists for the token or when the requested
quantity exceeds the held quantity; and no sequence of reduce_position
calls ever drives a held quantity negative. -/
theorem reduce_position_safety (rm : RiskManager) (token_address : String)
    (quantity exit_price : ℚ) (calls : List (String × ℚ × ℚ))
    (hnn : ∀ pr ∈ rm.positions, 0 ≤ pr.2.quantity) :
    ((lookupPos rm.positions token_address = none ∨
      (∃ pos, lookupPos rm.positions token_address = some pos ∧ pos.quantity < quantity)) →
      reduce_position rm token_address quantity exit_price = (rm, none)) ∧
    (∀ pr ∈ (reduceAll rm calls).positions, 0 ≤ pr.2.quantity) := by
  refine ⟨?_, reduceAll_nonneg calls rm hnn⟩
  rintro (hl | ⟨pos, hl, hq⟩)
  · exact reduce_position_none rm token_address quantity exit_price hl
  · exact reduce_position_toomuch rm token_address quantity exit_price pos hl hq

/-- Witness for C3: selling 5 units of a 1-unit position is rejected
without change, and a valid sequence keeps quantities nonnegative. -/
theorem reduce_position_safety_witness :
    reduce_position rmOne "A" 5 2 = (rmOne, none) ∧
    (∀ pr ∈ (reduceAll rmOne [("A", 1, 2)]).positions, 0 ≤ pr.2.quantity) := by
  have h := reduce_position_safety rmOne "A" 5 2 [("A", 1, 2)]
    (by simp [rmOne, posA])
  refine ⟨h.1 (Or.inr ⟨posA, by simp [lookupPos, rmOne], by norm_num [posA]⟩), h.2⟩

/-- Looking up the key just written by updatePos returns the written
value. -/
lemma lookup_updatePos_self (ps : List (String × Position)) (t : String) (v : Position) :
    lookupPos (updatePos ps t v) t = some v := by
  induction ps with
  | nil => simp [updatePos, lookupPos]
  | cons hd rest ih =>
    obtain ⟨k, w⟩ := hd
    by_cases hk : k = t
    · simp [updatePos, lookupPos, hk]
    · simp [updatePos, lookupPos, hk, ih]

/-- Invariant for C4: folding further buys into an existing position
adds the bought quantities and accumulates the entry value exactly. -/
lemma addAll_invariant (token_address symbol : String) (trades : List (ℚ × ℚ)) :
    ∀ (rm : RiskManager) (pos : Position),
      lookupPos rm.positions token_address = some pos → 0 < pos.quantity →
      (∀ qp ∈ trades, 0 < qp.1) →
      ∃ pos2,
        lookupPos (addAll rm token_address symbol trades).positions token_address =
          some pos2 ∧
        pos2.quantity = pos.quantity + (trades.map Prod.fst).sum ∧
        pos2.quantity * pos2.avg_entry_price =
          pos.quantity * pos.avg_entry_price +
            (trades.map fun qp => qp.1 * qp.2).sum := by
  induction trades with
  | nil =>
    intro rm pos hl hq _
    exact ⟨pos, by simpa [addAll] using hl, by simp, by simp⟩
  | cons qp rest ih =>
    intro rm pos hl hq hall
    have hq1 : 0 < qp.1 := hall qp (List.mem_cons_self _ _)
    set pos1 : Position :=
      { pos with
          quantity := pos.quantity + qp.1
          avg_entry_price := (pos.quantity * pos.avg_entry_price + qp.1 * qp.2) /
            (pos.quantity + qp.1) } with hpos1
    have hlook : lookupPos (add_position rm token_address symbol qp.1 qp.2).positions
        token_address = some pos1 := by
      unfold add_position
      rw [hl]
      exact lookup_updatePos_self _ _ _
    have hq2 : 0 < pos1.quantity := add_pos hq hq1
    obtain ⟨pos2, h1, h2, h3⟩ := ih (add_position rm token_address symbol qp.1 qp.2) pos1
      hlook hq2 (fun x hx => hall x (List.mem_cons_of_mem _ hx))
    have hne : pos.quantity + qp.1 ≠ 0 := ne_of_gt (add_pos hq hq1)
    have hcancel : pos1.quantity * pos1.avg_entry_price =
        pos.quantity * pos.avg_entry_price + qp.1 * qp.2 := by
      simp only [hpos1]
      rw [mul_comm, div_mul_cancel₀ _ hne]
    refine ⟨pos2, h1, ?_, ?_⟩
    · rw [h2]
      simp only [hpos1, List.map_cons, List.sum_cons]
      ring
    · rw [h3, hcancel]
      simp only [List.map_cons, List.sum_cons]
      ring

/-- C4: starting from no position for the token, any nonempty sequence
of add_position calls with positive quantities and prices yields a
position whose quantity is the sum of the bought quantities and whose
average entry price is the volume-weighted average of the buy prices
(exactly, in rational arithmetic). -/
theorem add_position_weighted_average (rm : RiskManager) (token_address symbol : String)
    (trades : List (ℚ × ℚ)) (hnone : lookupPos rm.positions token_address = none)
    (hall : ∀ qp ∈ trades, 0 < qp.1 ∧ 0 < qp.2) (hne : trades ≠ []) :
    ∃ pos,
      lookupPos (addAll rm token_address symbol trades).positions token_address =
        some pos ∧
      pos.quantity = (trades.map Prod.fst).sum ∧
      pos.avg_entry_price =
        (trades.map fun qp => qp.1 * qp.2).sum / (trades.map Prod.fst).sum := by
  match trades, hne with
  | qp :: rest, _ =>
    have hq1 : 0 < qp.1 := (hall qp (List.mem_cons_self _ _)).1
    set posN : Position :=
      { token_address := token_address
        symbol := symbol
        quantity := qp.1
        avg_entry_price := qp.2
        current_price := qp.2
        stop_loss_price := some (qp.2 * (1 - rm.stop_loss_pct))
        take_profit_price := some (qp.2 * (1 + rm.take_profit_pct)) } with hposN
    have hlook : lookupPos (add_position rm token_address symbol qp.1 qp.2).positions
        token_address = some posN := by
      unfold add_position
      rw [hnone]
      exact lookup_updatePos_self _ _ _
    have hqN : 0 < posN.quantity := hq1
    obtain ⟨pos2, h1, h2, h3⟩ := addAll_invariant token_address symbol rest
      (add_position rm token_address symbol qp.1 qp.2) posN hlook hqN
      (fun x hx => (hall x (List.mem_cons_of_mem _ hx)).1)
    have hQ : pos2.quantity = ((qp :: rest).map Prod.fst).sum := by
      rw [h2]
      simp [hposN]
    have hS : pos2.quantity * pos2.avg_entry_price =
        ((qp :: rest).map fun x => x.1 * x.2).sum := by
      rw [h3]
      simp [hposN]
    have hpos2 : 0 < pos2.quantity := by
      rw [h2]
      have hr : (0 : ℚ) ≤ (rest.map Prod.fst).sum := by
        apply List.sum_nonneg
        intro x hx
        obtain ⟨y, hy, rfl⟩ := List.mem_map.mp hx
        exact le_of_lt (hall y (List.mem_cons_of_mem _ hy)).1
      have hNq : posN.quantity = qp.1 := by simp [hposN]
      rw [hNq]
      linarith
    refine ⟨pos2, h1, hQ, ?_⟩
    rw [← hQ, eq_div_iff (ne_of_gt hpos2), mul_comm]
    exact hS

/-- Witness for C4: two buys of 2 units at 3 and 4 units at 6 yield a
6-unit position with volume-weighted entry price 5. -/
theorem add_position_weighted_average_witness :
    ∃ pos,
      lookupPos (addAll rmEmpty "T" "T" [(2, 3), (4, 6)]).positions "T" = some pos ∧
      pos.quantity = (([(2, 3), (4, 6)] : List (ℚ × ℚ)).map Prod.fst).sum ∧
      pos.avg_entry_price =
        (([(2, 3), (4, 6)] : List (ℚ × ℚ)).map fun qp => qp.1 * qp.2).sum /
          (([(2, 3), (4, 6)] : List (ℚ × ℚ)).map Prod.fst).sum :=
  add_position_weighted_average rmEmpty "T" "T" [(2, 3), (4, 6)]
    (by simp [lookupPos, rmEmpty])
    (by
      intro qp hqp
      fin_cases hqp <;> constructor <;> norm_num)
    (by simp)

/-- C7 amended: monitor_order returns true iff the first terminal
status observed before the timeout is filled; any other terminal status
returns false with no cancel attempt; the timeout case returns false
with exactly one cancel attempt in live mode and none in paper-trading
mode; and the outcome of the cancel call never influences the returned
value. -/
theorem monitor_order_spec (paper_trading : Bool) (cancel_result : Except Unit Unit)
    (polls : List (Except Unit OrderStatus)) :
    ((monitor_order paper_trading cancel_result polls).1 = true ↔
      firstTerminalStatus polls = some OrderStatus.filled) ∧
    (∀ s, firstTerminalStatus polls = some s → s ≠ OrderStatus.filled →
      monitor_order paper_trading cancel_result polls = (false, 0)) ∧
    (firstTerminalStatus polls = none →
      monitor_order paper_trading cancel_result polls =
        (false, if paper_trading then 0 else 1)) ∧
    (∀ c2, monitor_order paper_trading cancel_result polls =
      monitor_order paper_trading c2 polls) := by
  induction polls with
  | nil => simp [monitor_order, firstTerminalStatus]
  | cons head rest ih =>
    cases head with
    | error e => simpa [monitor_order, firstTerminalStatus] using ih
    | ok s =>
      cases s <;> simp [monitor_order, firstTerminalStatus] <;> exact ih

/-- Witness for the amended C7: a live-mode monitor that only ever sees
pending times out with failure and a single cancel attempt. -/
theorem monitor_order_spec_witness :
    monitor_order false (Except.ok ()) [Except.ok OrderStatus.pending] = (false, 1) :=
  (monitor_order_spec false (Except.ok ()) [Except.ok OrderStatus.pending]).2.2.1 rfl

/-- Every trigger produced by the check_stop_losses loop carries the
key of the ledger entry it came from. -/
lemma checkLoop_token_mem (ps : List (String × Position)) (g : Trigger)
    (hg : g ∈ checkLoop ps) : g.token_address ∈ ps.map Prod.fst := by
  induction ps with
  | nil => simp [checkLoop] at hg
  | cons hd rest ih =>
    obtain ⟨k, w⟩ := hd
    simp only [checkLoop] at hg
    simp only [List.map_cons]
    by_cases hs : stopCond w = true
    · rw [if_pos hs] at hg
      rcases List.mem_cons.mp hg with h1 | h1
      · subst h1
        simp [stopTrig]
      · exact List.mem_cons_of_mem _ (ih h1)
    · rw [if_neg hs] at hg
      by_cases htp : tpCond w = true
      · rw [if_pos htp] at hg
        rcases List.mem_cons.mp hg with h1 | h1
        · subst h1
          simp [tpTrig]
        · exact List.mem_cons_of_mem _ (ih h1)
      · rw [if_neg htp] at hg
        exact List.mem_cons_of_mem _ (ih hg)

/-- The triggers of one call of check_stop_losses that carry a given
token are exactly the contribution of that token's ledger entry:
a stop-loss trigger when the stop-loss condition holds, otherwise a
take-profit trigger when the take-profit condition holds, otherwise
nothing. -/
lemma checkLoop_filter (ps : List (String × Position)) (t : String) (pos : Position)
    (hnd : (ps.map Prod.fst).Nodup) (hmem : (t, pos) ∈ ps) :
    (checkLoop ps).filter (fun g => g.token_address = t) =
      (if stopCond pos then [stopTrig t pos]
       else if tpCond pos then [tpTrig t pos] else []) := by
  induction ps with
  | nil => cases hmem
  | cons hd rest ih =>
    obtain ⟨k, w⟩ := hd
    simp only [List.map_cons, List.nodup_cons] at hnd
    rcases List.mem_cons.mp hmem with h1 | h1
    · obtain ⟨hk, hw⟩ := Prod.mk.injEq .. ▸ h1
      subst hk
      subst hw
      have hrest : ∀ g ∈ checkLoop rest, ¬ (g.token_address = t) := by
        intro g hg hgt
        exact hnd.1 (hgt ▸ checkLoop_token_mem rest g hg)
      have hrestnil : (checkLoop rest).filter (fun g => g.token_address = t) = [] := by
        rw [List.filter_eq_nil_iff]
        intro g hg
        simpa using hrest g hg
      simp only [checkLoop]
      by_cases hs : stopCond pos = true
      · rw [if_pos hs, if_pos hs, List.filter_cons_of_pos (by simp [stopTrig]), hrestnil]
      · rw [if_neg hs, if_neg hs]
        by_cases htp : tpCond pos = true
        · rw [if_pos htp, if_pos htp, List.filter_cons_of_pos (by simp [tpTrig]), hrestnil]
        · rw [if_neg htp, if_neg htp]
          exact hrestnil
    · have hk : k ≠ t := by
        intro hk
        subst hk
        exact hnd.1 (List.mem_map.mpr ⟨(k, pos), h1, rfl⟩)
      have hIH := ih hnd.2 h1
      simp only [checkLoop]
      by_cases hs : stopCond w = true
      · rw [if_pos hs, List.filter_cons_of_neg (by simp [stopTrig, hk]), hIH]
      · rw [if_neg hs]
        by_cases htp : tpCond w = true
        · rw [if_pos htp, List.filter_cons_of_neg (by simp [tpTrig, hk]), hIH]
        · rw [if_neg htp]
          exact hIH

/-- C2 counterexample: on a position whose current price (7) is at or
above its take-profit price (5), but also at or below its stop-loss
price (10), one call of check_stop_losses emits no take_profit trigger,
refuting the claimed take-profit iff. -/
theorem check_stop_losses_claim_false :
    (5 : ℚ) ≤ posBad.current_price ∧ posBad.take_profit_price = some 5 ∧
    check_stop_losses rmBad = [stopTrig "B" posBad] ∧
    (stopTrig "B" posBad).action ≠ "take_profit" := by
  refine ⟨by norm_num [posBad], by simp [posBad], ?_, by simp [stopTrig]⟩
  simp only [check_stop_losses, rmBad, checkLoop]
  rw [if_pos (by norm_num [stopCond, posBad])]

/-- C2 amended: for a position whose stop-loss and take-profit prices
are set and nonzero, one call of check_stop_losses emits a stop_loss
trigger iff the current price is at or below the stop-loss price, emits
a take_profit trigger iff the current price is at or above the
take-profit price and the stop-loss condition does not hold (stop-loss
is checked first), and never emits both. -/
theorem check_stop_losses_triggers (rm : RiskManager)
    (hnd : (rm.positions.map Prod.fst).Nodup) (t : String) (pos : Position)
    (hmem : (t, pos) ∈ rm.positions) (s tpv : ℚ)
    (hs : pos.stop_loss_price = some s) (hs0 : s ≠ 0)
    (ht : pos.take_profit_price = some tpv) (ht0 : tpv ≠ 0) :
    ((∃ g ∈ check_stop_losses rm, g.token_address = t ∧ g.action = "stop_loss") ↔
      pos.current_price ≤ s) ∧
    ((∃ g ∈ check_stop_losses rm, g.token_address = t ∧ g.action = "take_profit") ↔
      (tpv ≤ pos.current_price ∧ ¬ pos.current_price ≤ s)) ∧
    ¬ ((∃ g ∈ check_stop_losses rm, g.token_address = t ∧ g.action = "stop_loss") ∧
       (∃ g ∈ check_stop_losses rm, g.token_address = t ∧ g.action = "take_profit")) := by
  have hfil := checkLoop_filter rm.positions t pos hnd hmem
  have hmem_iff : ∀ (a : String),
      (∃ g ∈ check_stop_losses rm, g.token_address = t ∧ g.action = a) ↔
      (∃ g ∈ (if stopCond pos then [stopTrig t pos]
              else if tpCond pos then [tpTrig t pos] else []), g.action = a) := by
    intro a
    rw [← hfil]
    constructor
    · rintro ⟨g, hg, hgt, hga⟩
      exact ⟨g, List.mem_filter.mpr ⟨hg, by simp [hgt]⟩, hga⟩
    · rintro ⟨g, hg, hga⟩
      have hm := List.mem_filter.mp hg
      exact ⟨g, hm.1, by simpa using hm.2, hga⟩
  have hsc : stopCond pos = decide (pos.current_price ≤ s) := by
    simp [stopCond, hs, hs0]
  have htc : tpCond pos = decide (tpv ≤ pos.current_price) := by
    simp [tpCond, ht, ht0]
  by_cases hcs : pos.current_price ≤ s <;> by_cases hct : tpv ≤ pos.current_price <;>
    simp [hmem_iff, hsc, htc, hcs, hct, stopTrig, tpTrig]

/-- Witness for the amended C2: on the inverted-threshold position both
conditions hold, a stop_loss trigger is emitted and no take_profit
trigger is. -/
theorem check_stop_losses_triggers_witness :
    ((∃ g ∈ check_stop_losses rmBad, g.token_address = "B" ∧ g.action = "stop_loss") ↔
      posBad.current_price ≤ 10) ∧
    ((∃ g ∈ check_stop_losses rmBad, g.token_address = "B" ∧ g.action = "take_profit") ↔
      ((5 : ℚ) ≤ posBad.current_price ∧ ¬ posBad.current_price ≤ 10)) ∧
    ¬ ((∃ g ∈ check_stop_losses rmBad, g.token_address = "B" ∧ g.action = "stop_loss") ∧
       (∃ g ∈ check_stop_losses rmBad, g.token_address = "B" ∧ g.action = "take_profit")) :=
  check_stop_losses_triggers rmBad (by simp [rmBad]) "B" posBad (by simp [rmBad]) 10 5
    (by simp [posBad]) (by norm_num) (by simp [posBad]) (by norm_num)

end Thor
